import Mathlib

/-!
Shallow embedding of the velociraptor hierarchical-summarization tree builder
and its graph persistence layer, translated from
`src/velociraptor/scripts/process_documents.py`, `src/velociraptor/db/neo4j.py`,
`src/velociraptor/summarize/summarize.py`, `src/velociraptor/split/text.py`,
`src/velociraptor/llm/gemini.py` and the dataclasses in
`src/velociraptor/models/`.

Modelling conventions:
* Python `uuid.uuid4()` node identities are modelled as values drawn from a
  monotone `Nat` supply (`fresh`): each constructed node consumes one fresh
  value, so distinct constructions get distinct ids.
* The external LLM summarizer (`summarize_summaries`' call to `llm.prompt`)
  is an opaque oracle `List Summary → String`.
* The Neo4j driver is not executed; database-affecting calls are recorded as
  an event trace (`Ev`), and for the claims about `save_node` / `create_edge`
  the Cypher `MERGE` / `MATCH` semantics of those two queries are modelled as
  functions on an explicit graph state.
* `async` is dropped: every awaited call is sequential in the source.
-/

namespace Velociraptor

/-- `EdgeType` enum (`models/edge.py`, with `PART_OF` as used by
`db/neo4j.py`). -/
inductive EdgeType where
  | NEXT
  | PREVIOUS
  | SUMMARIZES
  | CONTAINS
  | PART_OF
  deriving DecidableEq, Repr

/-- `Summary` dataclass (`models/summary.py` / `models/node.py`): a document
tree node with an identity, owning document id, tree address and text. -/
structure Summary where
  uuid : Nat
  document_uuid : Nat
  height : Int
  position : Nat
  text : String
  deriving DecidableEq, Repr

instance : Inhabited Summary := ⟨⟨0, 0, 0, 0, ""⟩⟩

/-- `Document` dataclass (`models/document.py`): `document_uuid` is set to the
node's own uuid in `__post_init__`. -/
structure Document where
  uuid : Nat
  document_uuid : Nat
  height : Int
  position : Nat
  text : String
  file_name : String
  file_path : String
  mime_type : String
  deriving DecidableEq, Repr

/-- `Page` dataclass (`models/page.py`). -/
structure Page where
  uuid : Nat
  document_uuid : Nat
  height : Int
  position : Nat
  file_name : String
  file_path : String
  mime_type : String
  text : String
  page_number : Int
  has_graphics : Bool
  has_tabular_data : Bool
  deriving DecidableEq, Repr

/-- `summarize_summaries` (`summarize/summarize.py` lines 50-57): builds one
new `Summary` whose `document_uuid` and `height` come from the first input
summary (`summaries[0]`), with the given `position`; the text produced by the
LLM is the `oracle` applied to the batch, and the uuid is the next fresh id.
The Python code raises `IndexError` on an empty batch; the embedding returns
the `Inhabited` default there, and every theorem that touches the head only
does so for nonempty batches. -/
def summarizeSummaries (oracle : List Summary → String) (fresh : Nat)
    (summaries : List Summary) (position : Nat) : Summary :=
  { uuid := fresh
    document_uuid := summaries.headI.document_uuid
    height := summaries.headI.height + 1
    position := position
    text := oracle summaries }

/-- One database-affecting effect, in program order.  `saveChunks p t` stands
for the whole `async for c in chunk_and_embed(t): save_chunk(c, parent)` loop
of `db/neo4j.py` (the chunk shredding is opaque to the tree-builder claims);
`existsCheck` records a `node_exists_by_position` probe together with the
answer the database gave. -/
inductive Ev where
  | saveNode (label : String) (uuid : Nat)
  | saveChunks (parentUuid : Nat) (text : String)
  | createEdge (fromUuid toUuid : Nat) (ty : EdgeType)
  | existsCheck (docUuid : Nat) (height : Int) (position : Nat) (result : Bool)
  deriving DecidableEq, Repr

/-- `Neo4jDb.link` (`db/neo4j.py` lines 77-79): a `NEXT` edge then a
`PREVIOUS` edge. -/
def linkEvs (prevUuid nextUuid : Nat) : List Ev :=
  [Ev.createEdge prevUuid nextUuid EdgeType.NEXT,
   Ev.createEdge nextUuid prevUuid EdgeType.PREVIOUS]

/-- `Neo4jDb.save_summary` (`db/neo4j.py` lines 102-109): save the node,
shred its text into chunks, link to the prior summary when present, then one
`SUMMARIZES` edge from the summary to every child. -/
def saveSummaryEvs (s : Summary) (prior : Option Summary)
    (children : List Summary) : List Ev :=
  [Ev.saveNode "Summary" s.uuid, Ev.saveChunks s.uuid s.text]
  ++ (match prior with
      | none => []
      | some p => linkEvs p.uuid s.uuid)
  ++ children.map (fun c => Ev.createEdge s.uuid c.uuid EdgeType.SUMMARIZES)

/-- `Neo4jDb.save_document` (`db/neo4j.py` lines 111-116): save the node,
shred its text, then one `SUMMARIZES` edge from the document to every summary
of the final layer. -/
def saveDocumentEvs (doc : Document) (summaries : List Summary) : List Ev :=
  [Ev.saveNode "Document" doc.uuid, Ev.saveChunks doc.uuid doc.text]
  ++ summaries.map (fun s => Ev.createEdge doc.uuid s.uuid EdgeType.SUMMARIZES)

/-- `Neo4jDb.save_page` (`db/neo4j.py` lines 85-92): save the node, a
`CONTAINS` edge from the document, a `PART_OF` edge back, shred the text,
then link from the prior page when present. -/
def savePageEvs (page : Page) (doc : Document) (prior : Option Page) : List Ev :=
  [Ev.saveNode "Page" page.uuid,
   Ev.createEdge doc.uuid page.uuid EdgeType.CONTAINS,
   Ev.createEdge page.uuid doc.uuid EdgeType.PART_OF,
   Ev.saveChunks page.uuid page.text]
  ++ (match prior with
      | none => []
      | some p => linkEvs p.uuid page.uuid)

/-- `Neo4jDb.save_page_summary` (`db/neo4j.py` lines 94-100): save the node,
shred the text, a `SUMMARIZES` edge to the page, then link from the prior
page summary when present. -/
def savePageSummaryEvs (s : Summary) (page : Page) (prior : Option Summary) :
    List Ev :=
  [Ev.saveNode "Summary" s.uuid, Ev.saveChunks s.uuid s.text,
   Ev.createEdge s.uuid page.uuid EdgeType.SUMMARIZES]
  ++ (match prior with
      | none => []
      | some p => linkEvs p.uuid s.uuid)

/-- The sequence of window start indices visited by the
`while i < len(summaries): ... i += 2` loop of `summarize_layer`
(`scripts/process_documents.py` lines 40-48), starting at `i`. -/
def windowStarts (n i : Nat) : List Nat :=
  if h : i < n then i :: windowStarts n (i + 2) else []
termination_by n - i

/-- The batch read at window start `i`:
`summaries[i:i+3] if i + 2 < len(summaries) else summaries[i:]`
(`scripts/process_documents.py` lines 44-46). -/
def batchAt (l : List Summary) (i : Nat) : List Summary :=
  if i + 2 < l.length then (l.drop i).take 3 else l.drop i

/-- The body of `summarize_layer`'s reduction loop
(`scripts/process_documents.py` lines 40-65), one iteration per window start:
build the batch, call the summarizer with `position=len(new_summaries)`,
then either save unconditionally (`is_new_document`) or probe
`node_exists_by_position(doc.uuid, height, position)` first and skip the save
when the node already exists; in every case the new summary is appended to
`new_summaries`.  Returns the new layer, the next fresh id, and the trace. -/
def loopGo (oracle : List Summary → String) (existsO : Nat → Int → Nat → Bool)
    (isNew : Bool) (docUuid : Nat) (l : List Summary) :
    List Nat → List Summary → Nat → List Summary × Nat × List Ev
  | [], acc, fresh => (acc, fresh, [])
  | i :: rest, acc, fresh =>
    let batch := batchAt l i
    let ns := summarizeSummaries oracle fresh batch acc.length
    let evs :=
      if isNew then
        saveSummaryEvs ns acc.getLast? batch
      else
        let ex := existsO docUuid ns.height ns.position
        Ev.existsCheck docUuid ns.height ns.position ex ::
          (if ex then [] else saveSummaryEvs ns acc.getLast? batch)
    let r := loopGo oracle existsO isNew docUuid l rest (acc ++ [ns]) (fresh + 1)
    (r.1, r.2.1, evs ++ r.2.2)

/-- One application of `summarize_layer`'s reduction case: the whole window
loop run from `i = 0` with an empty `new_summaries` accumulator. -/
def buildLayer (oracle : List Summary → String) (existsO : Nat → Int → Nat → Bool)
    (isNew : Bool) (doc : Document) (summaries : List Summary) (fresh : Nat) :
    List Summary × Nat × List Ev :=
  loopGo oracle existsO isNew doc.uuid summaries
    (windowStarts summaries.length 0) [] fresh

theorem windowStarts_length (n i : Nat) :
    (windowStarts n i).length = (n - i + 1) / 2 := by
  unfold windowStarts
  split
  · rw [List.length_cons, windowStarts_length n (i + 2)]
    omega
  · simp
    omega
termination_by n - i

theorem loopGo_fst_length (oracle : List Summary → String)
    (existsO : Nat → Int → Nat → Bool) (isNew : Bool) (docUuid : Nat)
    (l : List Summary) :
    ∀ (starts : List Nat) (acc : List Summary) (fresh : Nat),
      (loopGo oracle existsO isNew docUuid l starts acc fresh).1.length
        = acc.length + starts.length := by
  intro starts
  induction starts with
  | nil => intro acc fresh; simp [loopGo]
  | cons i rest ih =>
    intro acc fresh
    simp only [loopGo]
    rw [ih]
    simp
    omega

theorem buildLayer_fst_length (oracle : List Summary → String)
    (existsO : Nat → Int → Nat → Bool) (isNew : Bool) (doc : Document)
    (summaries : List Summary) (fresh : Nat) :
    (buildLayer oracle existsO isNew doc summaries fresh).1.length
      = (summaries.length + 1) / 2 := by
  unfold buildLayer
  rw [loopGo_fst_length, windowStarts_length]
  simp

/-- `summarize_layer` (`scripts/process_documents.py` lines 29-69).  Base
case (`len(summaries) < 4`): reduce the whole input to one synthetic summary
at position 0, copy its text and height onto the document, and persist the
document with `SUMMARIZES` edges to every input summary.  Otherwise run the
window loop and recurse on the new layer.  Returns the final document value
and the full trace of database effects. -/
def summarizeLayer (oracle : List Summary → String)
    (existsO : Nat → Int → Nat → Bool) (isNew : Bool)
    (summaries : List Summary) (doc : Document) (fresh : Nat) :
    Document × List Ev :=
  if _h : summaries.length < 4 then
    let summary := summarizeSummaries oracle fresh summaries 0
    let doc2 := { doc with text := summary.text, height := summary.height }
    (doc2, saveDocumentEvs doc2 summaries)
  else
    let r := buildLayer oracle existsO isNew doc summaries fresh
    let rest := summarizeLayer oracle existsO isNew r.1 doc r.2.1
    (rest.1, r.2.2 ++ rest.2)
termination_by summaries.length
decreasing_by
  rw [buildLayer_fst_length]
  omega

/-- Closed form of the summary the window loop constructs in iteration `j`:
window starts advance by 2 per iteration, so iteration `j` reads the batch at
start `2 * j`, consumes the `j`-th fresh id, and assigns position `j`. -/
def newSummaryAt (oracle : List Summary → String) (l : List Summary)
    (fresh0 j : Nat) : Summary :=
  summarizeSummaries oracle (fresh0 + j) (batchAt l (2 * j)) j

/-- Closed form of `new_summaries[-1]` as seen by iteration `j` of the window
loop: the summary constructed in iteration `j - 1`, if any. -/
def priorAt (oracle : List Summary → String) (l : List Summary)
    (fresh0 j : Nat) : Option Summary :=
  if j = 0 then none else some (newSummaryAt oracle l fresh0 (j - 1))

/-- Closed form of the database effects of iteration `j` of the window loop:
for a new document, an unconditional `save_summary`; for an existing one, an
existence probe at the new summary's address followed by the save only when
the probe came back false. -/
def layerIterEvs (oracle : List Summary → String)
    (existsO : Nat → Int → Nat → Bool) (isNew : Bool) (docUuid : Nat)
    (l : List Summary) (fresh0 j : Nat) : List Ev :=
  let ns := newSummaryAt oracle l fresh0 j
  if isNew then
    saveSummaryEvs ns (priorAt oracle l fresh0 j) (batchAt l (2 * j))
  else
    let ex := existsO docUuid ns.height ns.position
    Ev.existsCheck docUuid ns.height ns.position ex ::
      (if ex then []
       else saveSummaryEvs ns (priorAt oracle l fresh0 j) (batchAt l (2 * j)))

theorem range_getLast? (j : Nat) :
    (List.range j).getLast? = if j = 0 then none else some (j - 1) := by
  cases j with
  | zero => simp
  | succ j => simp [List.range_succ]

theorem loopGo_closed (oracle : List Summary → String)
    (existsO : Nat → Int → Nat → Bool) (isNew : Bool) (docUuid : Nat)
    (l : List Summary) (fresh0 : Nat) :
    ∀ j, j ≤ (l.length + 1) / 2 →
      loopGo oracle existsO isNew docUuid l (windowStarts l.length (2 * j))
        ((List.range j).map (newSummaryAt oracle l fresh0)) (fresh0 + j)
      = ((List.range ((l.length + 1) / 2)).map (newSummaryAt oracle l fresh0),
         fresh0 + (l.length + 1) / 2,
         ((List.range ((l.length + 1) / 2)).drop j).flatMap
           (layerIterEvs oracle existsO isNew docUuid l fresh0)) := by
  intro j hj
  rw [windowStarts]
  split
  · next h2j =>
    have hjlt : j < (l.length + 1) / 2 := by omega
    have hdrop : (List.range ((l.length + 1) / 2)).drop j
        = j :: (List.range ((l.length + 1) / 2)).drop (j + 1) := by
      rw [List.drop_eq_getElem_cons (by simpa using hjlt)]
      simp
    simp only [loopGo]
    have hlen : ((List.range j).map (newSummaryAt oracle l fresh0)).length = j := by
      simp
    have hns : summarizeSummaries oracle (fresh0 + j) (batchAt l (2 * j))
        ((List.range j).map (newSummaryAt oracle l fresh0)).length
        = newSummaryAt oracle l fresh0 j := by
      rw [hlen]; rfl
    have hlast : ((List.range j).map (newSummaryAt oracle l fresh0)).getLast?
        = priorAt oracle l fresh0 j := by
      rw [List.getLast?_map, range_getLast?, priorAt]
      cases j <;> simp
    have hacc : (List.range j).map (newSummaryAt oracle l fresh0)
        ++ [newSummaryAt oracle l fresh0 j]
        = (List.range (j + 1)).map (newSummaryAt oracle l fresh0) := by
      rw [List.range_succ]; simp
    rw [hns, hlast, hacc]
    have h2 : 2 * j + 2 = 2 * (j + 1) := by ring
    have hfr : fresh0 + j + 1 = fresh0 + (j + 1) := by omega
    rw [h2, hfr, loopGo_closed oracle existsO isNew docUuid l fresh0 (j + 1)
      (by omega)]
    rw [hdrop, List.flatMap_cons]
    simp only [layerIterEvs]
  · next h2j =>
    have hje : j = (l.length + 1) / 2 := by omega
    subst hje
    have hnil : (List.range ((l.length + 1) / 2)).drop ((l.length + 1) / 2)
        = [] := by
      apply List.drop_eq_nil_of_le
      simp
    rw [hnil]
    simp [loopGo]
termination_by j => (l.length + 1) / 2 - j

/-- Closed form of one reduction-layer pass: the new layer is the list of
`newSummaryAt` values (positions `0..k-1` with fresh uuids `fresh0..`), the
fresh supply advances by `k = ceil(n / 2)`, and the trace is the
concatenation of the per-iteration effect lists. -/
theorem buildLayer_closed (oracle : List Summary → String)
    (existsO : Nat → Int → Nat → Bool) (isNew : Bool) (doc : Document)
    (l : List Summary) (fresh0 : Nat) :
    buildLayer oracle existsO isNew doc l fresh0
      = ((List.range ((l.length + 1) / 2)).map (newSummaryAt oracle l fresh0),
         fresh0 + (l.length + 1) / 2,
         (List.range ((l.length + 1) / 2)).flatMap
           (layerIterEvs oracle existsO isNew doc.uuid l fresh0)) := by
  have h := loopGo_closed oracle existsO isNew doc.uuid l fresh0 0 (by omega)
  simpa [buildLayer] using h

/-- Recognizer for existence-probe events in a trace. -/
def isExistsCheckEv : Ev → Bool
  | Ev.existsCheck _ _ _ _ => true
  | _ => false

/-- Recognizer for `save_node` events writing a `Summary` node. -/
def isSummarySaveEv : Ev → Bool
  | Ev.saveNode label _ => label == "Summary"
  | _ => false

/-- Recognizer for `save_node` events writing a `Page` node. -/
def isPageSaveEv : Ev → Bool
  | Ev.saveNode label _ => label == "Page"
  | _ => false

/-- Recognizer for `SUMMARIZES` edge events. -/
def isSummarizesEdgeEv : Ev → Bool
  | Ev.createEdge _ _ EdgeType.SUMMARIZES => true
  | _ => false

/-- The per-page save loop of `process_documents_folder`
(`scripts/process_documents.py` lines 156-187): for each `(page, summary)`
pair produced by the external extractor, either save both unconditionally
(`is_new_document`) or probe `node_exists_by_position` at `(doc.uuid, 0,
page.position)` and `(doc.uuid, 1, summary.position)` first, skipping the
corresponding save when the node already exists; the pair is appended to the
in-memory `pages` / `summaries` lists in every case, so the next iteration's
prior links always reference the in-memory objects. -/
def pageLoop (existsO : Nat → Int → Nat → Bool) (isNew : Bool) (doc : Document) :
    List (Page × Summary) → Option Page → Option Summary → List Ev
  | [], _, _ => []
  | (page, summ) :: rest, priorPage, priorSumm =>
    let evs :=
      if isNew then
        savePageEvs page doc priorPage ++ savePageSummaryEvs summ page priorSumm
      else
        let pe := existsO doc.uuid 0 page.position
        (Ev.existsCheck doc.uuid 0 page.position pe ::
          (if pe then [] else savePageEvs page doc priorPage))
        ++ (let se := existsO doc.uuid 1 summ.position
            Ev.existsCheck doc.uuid 1 summ.position se ::
              (if se then [] else savePageSummaryEvs summ page priorSumm))
    evs ++ pageLoop existsO isNew doc rest (some page) (some summ)

/-- Annotates each `(page, summary)` pair with the in-memory predecessors the
loop sees when it processes that pair. -/
def withPriors : Option Page → Option Summary → List (Page × Summary) →
    List ((Option Page × Option Summary) × (Page × Summary))
  | _, _, [] => []
  | pp, ps, (page, summ) :: rest =>
    ((pp, ps), (page, summ)) :: withPriors (some page) (some summ) rest

/-- Closed form of the database effects of one iteration of the per-page
save loop. -/
def pageIterEvs (existsO : Nat → Int → Nat → Bool) (isNew : Bool)
    (doc : Document) (x : (Option Page × Option Summary) × (Page × Summary)) :
    List Ev :=
  let page := x.2.1
  let summ := x.2.2
  if isNew then
    savePageEvs page doc x.1.1 ++ savePageSummaryEvs summ page x.1.2
  else
    let pe := existsO doc.uuid 0 page.position
    (Ev.existsCheck doc.uuid 0 page.position pe ::
      (if pe then [] else savePageEvs page doc x.1.1))
    ++ (let se := existsO doc.uuid 1 summ.position
        Ev.existsCheck doc.uuid 1 summ.position se ::
          (if se then [] else savePageSummaryEvs summ page x.1.2))

/-- A Neo4j property value, as written by the dataclass-field introspection
of `Neo4jDb.save_node` (`db/neo4j.py` lines 41-49); embedding vectors are
kept opaque as integer lists since no claim computes with them. -/
inductive PropVal where
  | s (v : String)
  | i (v : Int)
  | b (v : Bool)
  | vec (v : List Int)
  deriving DecidableEq, Repr

/-- One stored graph node: its `uuid` property, its labels, and its full
property map. -/
structure GNode where
  uuid : Nat
  labels : List String
  props : List (String × PropVal)
  deriving DecidableEq, Repr

/-- The observable graph state touched by `save_node` and `create_edge`:
stored nodes in creation order and the set of typed directed edges. -/
structure Graph where
  nodes : List GNode
  edges : List (Nat × Nat × EdgeType)
  deriving DecidableEq, Repr

def emptyGraph : Graph := ⟨[], []⟩

/-- The pattern of `save_node`'s Cypher
`MERGE (n:{label}:Searchable {uuid: $props.uuid})`: a stored node matches
when it carries the node's uuid and at least both labels. -/
def nodeMatches (label : String) (u : Nat) (nd : GNode) : Bool :=
  nd.uuid == u && nd.labels.contains label && nd.labels.contains "Searchable"

/-- The `SET n = $props` clause applied to every matched node: all stored
properties are replaced by the node's non-null field map. -/
def setProps (label : String) (u : Nat) (props : List (String × PropVal))
    (nd : GNode) : GNode :=
  if nodeMatches label u nd then { nd with props := props } else nd

/-- `Neo4jDb.save_node` (`db/neo4j.py` lines 32-58), as the effect of its
single Cypher query
`MERGE (n:{label}:Searchable {uuid: $props.uuid}) SET n = $props` on the
graph: if some node matches the merge pattern, every matched node has its
properties overwritten; otherwise a new node with exactly the two labels and
the property map is created. -/
def saveNode (g : Graph) (label : String) (u : Nat)
    (props : List (String × PropVal)) : Graph :=
  if g.nodes.any (nodeMatches label u) then
    { g with nodes := g.nodes.map (setProps label u props) }
  else
    { g with nodes := g.nodes ++ [{ uuid := u, labels := [label, "Searchable"], props := props }] }

/-- The property map `save_node` builds for a `Summary` by iterating its
dataclass fields (none of which is `None`). -/
def summaryProps (s : Summary) : List (String × PropVal) :=
  [("uuid", PropVal.i s.uuid), ("document_uuid", PropVal.i s.document_uuid),
   ("height", PropVal.i s.height), ("position", PropVal.i s.position),
   ("text", PropVal.s s.text)]

/-- Whether a node with the given `uuid` property exists (the label-free
`MATCH (x {uuid: $u})` of `create_edge`). -/
def nodeExists (g : Graph) (u : Nat) : Bool :=
  g.nodes.any (fun nd => nd.uuid == u)

/-- `Neo4jDb.create_edge` (`db/neo4j.py` lines 60-75), as the effect of its
Cypher query `MATCH (from {uuid}) MATCH (to {uuid}) MERGE (from)-[:TYPE]->(to)`:
when both endpoint matches succeed the relationship is merged (added only if
absent); when either `MATCH` finds no node the query produces zero rows, so
the `MERGE` runs zero times and `session.run` still returns normally — the
result is `Except` so that the absence of a raised error is part of the
model. -/
def createEdge (g : Graph) (fromUuid toUuid : Nat) (ty : EdgeType) :
    Except String Graph :=
  if nodeExists g fromUuid && nodeExists g toUuid then
    Except.ok { g with
      edges := if (fromUuid, toUuid, ty) ∈ g.edges then g.edges
               else g.edges ++ [(fromUuid, toUuid, ty)] }
  else
    Except.ok g

/-- `Chunk` node (`models/chunk.py`, with the `text`/`sequence` field names
used by `llm/gemini.py` when constructing chunks); embedding vectors are
opaque. -/
structure Chunk where
  text : String
  embedding : List Int
  sequence : Nat
  deriving DecidableEq, Repr

/-- `chunk_text_for_embedding` (`split/text.py` lines 9-24).  The splitter
(langchain's `RecursiveCharacterTextSplitter.split_text`) is an external
collaborator, passed in as `split`.  `vectors = llm.embed(text_chunks)` only
creates an async generator and the function never iterates it, so zero calls
reach the embedding provider (the `Nat` component of the result).  The chunk
loop body references the undefined name `vector`, so the first iteration
raises `NameError`; with an empty chunk list the loop body never runs and the
empty list is returned. -/
def chunkTextForEmbedding (split : String → List String) (text : String) :
    Except String (List Chunk) × Nat :=
  let text_chunks := split text
  match text_chunks with
  | [] => (Except.ok [], 0)
  | _ :: _ => (Except.error "NameError: name vector is not defined", 0)

/-- The batch start indices of `Gemini.embed`'s
`for i in range(0, len(text_chunks), batch_size)` loop with `batch_size = 20`
(`llm/gemini.py` lines 93-96). -/
def embedBatchStarts (n i : Nat) : List Nat :=
  if h : i < n then i :: embedBatchStarts n (i + 20) else []
termination_by n - i

/-- Number of `embed_content` requests `Gemini.embed` issues when its
generator is fully consumed: one per batch of 20. -/
def embedProviderCalls (text_chunks : List String) : Nat :=
  (embedBatchStarts text_chunks.length 0).length

/-- Concrete sample data: five height-1 summaries of document 7, and the
owning document with the not-yet-known height -1. -/
def sampleFive : List Summary :=
  [⟨1, 7, 1, 0, "a"⟩, ⟨2, 7, 1, 1, "b"⟩, ⟨3, 7, 1, 2, "c"⟩,
   ⟨4, 7, 1, 3, "d"⟩, ⟨5, 7, 1, 4, "e"⟩]

def sampleTwo : List Summary := [⟨1, 7, 1, 0, "a"⟩, ⟨2, 7, 1, 1, "b"⟩]

def sampleDoc : Document :=
  ⟨7, 7, -1, 0, "", "file", "files/documents/file.pdf", "application/pdf"⟩

/-- A concrete summarization oracle: concatenate the batch texts. -/
def sampleOracle : List Summary → String :=
  fun l => String.join (l.map Summary.text)

/-- Existence oracle of a database with no prior nodes. -/
def noExisting : Nat → Int → Nat → Bool := fun _ _ _ => false

/-- Existence oracle of a database that already holds the node at position 0
of every layer. -/
def posZeroExists : Nat → Int → Nat → Bool := fun _ _ p => p == 0

theorem newSummaryAt_position (oracle : List Summary → String)
    (l : List Summary) (fresh0 j : Nat) :
    (newSummaryAt oracle l fresh0 j).position = j := rfl

theorem newSummaryAt_uuid (oracle : List Summary → String)
    (l : List Summary) (fresh0 j : Nat) :
    (newSummaryAt oracle l fresh0 j).uuid = fresh0 + j := rfl

theorem mem_saveSummaryEvs {a : Ev} {s : Summary} {prior : Option Summary}
    {children : List Summary} (ha : a ∈ saveSummaryEvs s prior children) :
    a = Ev.saveNode "Summary" s.uuid ∨ a = Ev.saveChunks s.uuid s.text
    ∨ (∃ p, prior = some p
        ∧ (a = Ev.createEdge p.uuid s.uuid EdgeType.NEXT
           ∨ a = Ev.createEdge s.uuid p.uuid EdgeType.PREVIOUS))
    ∨ ∃ c ∈ children, a = Ev.createEdge s.uuid c.uuid EdgeType.SUMMARIZES := by
  cases prior with
  | none =>
    simp [saveSummaryEvs, linkEvs] at ha
    tauto
  | some p =>
    simp [saveSummaryEvs, linkEvs] at ha
    rcases ha with h | h | h | h | ⟨c, hc, h⟩
    · exact Or.inl h
    · exact Or.inr (Or.inl h)
    · exact Or.inr (Or.inr (Or.inl ⟨p, rfl, Or.inl h⟩))
    · exact Or.inr (Or.inr (Or.inl ⟨p, rfl, Or.inr h⟩))
    · exact Or.inr (Or.inr (Or.inr ⟨c, hc, h.symm⟩))

theorem countP_flatMap {α β : Type} (p : β → Bool) (f : α → List β) :
    ∀ l : List α, (l.flatMap f).countP p = (l.map (fun a => (f a).countP p)).sum := by
  intro l
  induction l with
  | nil => simp
  | cons a rest ih => simp [List.flatMap_cons, List.countP_append, ih]

theorem countP_isExistsCheckEv_saveSummaryEvs (s : Summary)
    (prior : Option Summary) (children : List Summary) :
    (saveSummaryEvs s prior children).countP isExistsCheckEv = 0 := by
  rw [List.countP_eq_zero]
  intro a ha
  rcases mem_saveSummaryEvs ha with h | h | ⟨p, _, h | h⟩ | ⟨c, _, h⟩ <;>
    subst h <;> simp [isExistsCheckEv]

theorem countP_isSummarySaveEv_saveSummaryEvs (s : Summary)
    (prior : Option Summary) (children : List Summary) :
    (saveSummaryEvs s prior children).countP isSummarySaveEv = 1 := by
  cases prior <;>
    simp [saveSummaryEvs, linkEvs, isSummarySaveEv, List.countP_cons,
      List.countP_append, List.countP_map, Function.comp]

/-- C1 as written fails: for the 5-element input the window loop visits
starts 0, 2 and 4 (the `while i < len` guard with `i += 2` admits `i = 4`),
producing a third, singleton batch, so the new layer has 3 elements while
`ceil((n-1)/2) = 2`. -/
theorem reduction_layer_size_counterexample :
    (buildLayer sampleOracle noExisting true sampleDoc sampleFive 10).1.length = 3
    ∧ (buildLayer sampleOracle noExisting true sampleDoc sampleFive 10).1.length
        ≠ (sampleFive.length - 1 + 1) / 2 := by
  constructor
  · rw [buildLayer_fst_length]; rfl
  · rw [buildLayer_fst_length]; simp [sampleFive]

/-- C1 amended: one application of the reduction case on `n ≥ 4` summaries
produces a new layer of exactly `ceil(n/2) = (n+1)/2` elements (which equals
`ceil((n-1)/2)` only for even `n`; for odd `n` a trailing singleton window
adds one more). -/
theorem reduction_layer_size (oracle : List Summary → String)
    (existsO : Nat → Int → Nat → Bool) (isNew : Bool) (doc : Document)
    (summaries : List Summary) (fresh : Nat)
    (hn : 4 ≤ summaries.length) :
    (buildLayer oracle existsO isNew doc summaries fresh).1.length
      = (summaries.length + 1) / 2 :=
  buildLayer_fst_length oracle existsO isNew doc summaries fresh

theorem reduction_layer_size_witness :
    4 ≤ sampleFive.length
    ∧ (buildLayer sampleOracle noExisting true sampleDoc sampleFive 10).1.length
        = (sampleFive.length + 1) / 2 :=
  ⟨by decide,
   reduction_layer_size sampleOracle noExisting true sampleDoc sampleFive 10
     (by decide)⟩

/-- C7: the positions assigned to the newly produced layer are exactly the
contiguous integers `0, 1, ..., k-1` in creation order — each new summary's
position is its 0-based index in the new layer. -/
theorem new_layer_positions_contiguous (oracle : List Summary → String)
    (existsO : Nat → Int → Nat → Bool) (isNew : Bool) (doc : Document)
    (summaries : List Summary) (fresh : Nat) :
    (buildLayer oracle existsO isNew doc summaries fresh).1.map Summary.position
      = List.range
          (buildLayer oracle existsO isNew doc summaries fresh).1.length := by
  rw [buildLayer_closed]
  simp only [List.map_map, List.length_map, List.length_range]
  exact (List.map_congr_left fun j _ => rfl).trans (List.map_id _)

/-- C8: whenever the input has at least 4 elements, the recursively
processed new layer is strictly smaller than the input, so the recursion of
`summarize_layer` (a total function in this embedding) reaches the base case
after finitely many layers. -/
theorem reduction_strictly_shrinks (oracle : List Summary → String)
    (existsO : Nat → Int → Nat → Bool) (isNew : Bool) (doc : Document)
    (summaries : List Summary) (fresh : Nat)
    (hn : 4 ≤ summaries.length) :
    (buildLayer oracle existsO isNew doc summaries fresh).1.length
      < summaries.length := by
  rw [buildLayer_fst_length]
  omega

theorem reduction_strictly_shrinks_witness :
    4 ≤ sampleFive.length
    ∧ (buildLayer sampleOracle noExisting true sampleDoc sampleFive 10).1.length
        < sampleFive.length :=
  ⟨by decide,
   reduction_strictly_shrinks sampleOracle noExisting true sampleDoc sampleFive
     10 (by decide)⟩

/-- C2 as written fails: on the 5-element input the window loop does not
stop after starts 0 and 2 — the guard `while i < len(summaries)` admits
`i = 4` as well, producing a third, singleton batch containing only the last
input summary. -/
theorem five_input_batches_counterexample :
    windowStarts sampleFive.length 0 = [0, 2, 4]
    ∧ batchAt sampleFive 4 = [⟨5, 7, 1, 4, "e"⟩] := by
  constructor
  · simp [sampleFive, windowStarts]
  · simp [sampleFive, batchAt]

/-- C2 amended: for 5 input summaries at height 1, the reduction layer at
height 2 is built from the three batches at window starts 0, 2 and 4 —
indices `[0,1,2]`, `[2,3,4]` and `[4]` — producing positions 0, 1 and 2,
consecutive summaries linked `NEXT`/`PREVIOUS`; the resulting layer of size
3 falls to the base case and the document's height is set to 3. -/
theorem five_input_run :
    batchAt sampleFive 0 = [⟨1, 7, 1, 0, "a"⟩, ⟨2, 7, 1, 1, "b"⟩, ⟨3, 7, 1, 2, "c"⟩]
    ∧ batchAt sampleFive 2 = [⟨3, 7, 1, 2, "c"⟩, ⟨4, 7, 1, 3, "d"⟩, ⟨5, 7, 1, 4, "e"⟩]
    ∧ batchAt sampleFive 4 = [⟨5, 7, 1, 4, "e"⟩]
    ∧ (buildLayer sampleOracle noExisting true sampleDoc sampleFive 10).1.map
        (fun s => (s.height, s.position)) = [(2, 0), (2, 1), (2, 2)]
    ∧ Ev.createEdge 10 11 EdgeType.NEXT
        ∈ (buildLayer sampleOracle noExisting true sampleDoc sampleFive 10).2.2
    ∧ Ev.createEdge 11 10 EdgeType.PREVIOUS
        ∈ (buildLayer sampleOracle noExisting true sampleDoc sampleFive 10).2.2
    ∧ Ev.createEdge 11 12 EdgeType.NEXT
        ∈ (buildLayer sampleOracle noExisting true sampleDoc sampleFive 10).2.2
    ∧ Ev.createEdge 12 11 EdgeType.PREVIOUS
        ∈ (buildLayer sampleOracle noExisting true sampleDoc sampleFive 10).2.2
    ∧ (summarizeLayer sampleOracle noExisting true sampleFive sampleDoc 10).1.height
        = 3 := by
  refine ⟨?_, ?_, ?_, ?_, ?_, ?_, ?_, ?_, ?_⟩ <;>
    simp [sampleFive, sampleDoc, sampleOracle, noExisting, batchAt, buildLayer,
      loopGo, windowStarts, summarizeLayer, summarizeSummaries, saveSummaryEvs,
      linkEvs, saveDocumentEvs]

/-- The document value produced by `summarize_layer`'s base case: the root
summary's text and height copied onto the document. -/
def rootDocument (oracle : List Summary → String) (l : List Summary)
    (doc : Document) (fresh : Nat) : Document :=
  { doc with
    text := (summarizeSummaries oracle fresh l 0).text
    height := (summarizeSummaries oracle fresh l 0).height }

theorem summarizeLayer_base (oracle : List Summary → String)
    (existsO : Nat → Int → Nat → Bool) (isNew : Bool) (l : List Summary)
    (doc : Document) (fresh : Nat) (hlen : l.length < 4) :
    summarizeLayer oracle existsO isNew l doc fresh
      = (rootDocument oracle l doc fresh,
         saveDocumentEvs (rootDocument oracle l doc fresh) l) := by
  rw [summarizeLayer, dif_pos hlen]
  rfl

/-- C3: for fewer than 4 input summaries at a common height `h`,
`summarize_layer` reduces the whole input to one synthetic summary at height
`h+1` and position 0, copies its text and height onto the document, persists
the document, and the `SUMMARIZES` edges of the resulting trace are exactly
one edge per input element, each directed from the document to that input
summary. -/
theorem base_case_collapse (oracle : List Summary → String)
    (existsO : Nat → Int → Nat → Bool) (isNew : Bool) (doc : Document)
    (l : List Summary) (fresh : Nat) (h : Int)
    (hne : l ≠ []) (hlen : l.length < 4) (hh : ∀ s ∈ l, s.height = h) :
    (summarizeSummaries oracle fresh l 0).height = h + 1
    ∧ (summarizeSummaries oracle fresh l 0).position = 0
    ∧ (summarizeLayer oracle existsO isNew l doc fresh).1.text = oracle l
    ∧ (summarizeLayer oracle existsO isNew l doc fresh).1.height = h + 1
    ∧ (summarizeLayer oracle existsO isNew l doc fresh).2
        = saveDocumentEvs (summarizeLayer oracle existsO isNew l doc fresh).1 l
    ∧ ((summarizeLayer oracle existsO isNew l doc fresh).2).filter isSummarizesEdgeEv
        = l.map (fun s => Ev.createEdge doc.uuid s.uuid EdgeType.SUMMARIZES) := by
  have hhead : l.headI.height = h := by
    cases l with
    | nil => exact absurd rfl hne
    | cons s t => exact hh s (by simp)
  have hunf := summarizeLayer_base oracle existsO isNew l doc fresh hlen
  refine ⟨?_, rfl, ?_, ?_, ?_, ?_⟩
  · simp [summarizeSummaries, hhead]
  · rw [hunf]
    simp [rootDocument, summarizeSummaries]
  · rw [hunf]
    simp [rootDocument, summarizeSummaries, hhead]
  · rw [hunf]
  · rw [hunf]
    simp only [saveDocumentEvs]
    rw [List.filter_append]
    have h1 : List.filter isSummarizesEdgeEv
        [Ev.saveNode "Document" (rootDocument oracle l doc fresh).uuid,
         Ev.saveChunks (rootDocument oracle l doc fresh).uuid
           (rootDocument oracle l doc fresh).text] = [] := by
      simp [isSummarizesEdgeEv]
    have h2 : List.filter isSummarizesEdgeEv
        (l.map (fun s =>
          Ev.createEdge (rootDocument oracle l doc fresh).uuid s.uuid
            EdgeType.SUMMARIZES))
        = l.map (fun s =>
            Ev.createEdge (rootDocument oracle l doc fresh).uuid s.uuid
              EdgeType.SUMMARIZES) := by
      apply List.filter_eq_self.2
      intro a ha
      rcases List.mem_map.1 ha with ⟨s, _, rfl⟩
      rfl
    rw [h1, h2]
    rfl

theorem base_case_collapse_witness :
    sampleTwo ≠ [] ∧ sampleTwo.length < 4 ∧ (∀ s ∈ sampleTwo, s.height = 1)
    ∧ ((summarizeSummaries sampleOracle 10 sampleTwo 0).height = 1 + 1
    ∧ (summarizeSummaries sampleOracle 10 sampleTwo 0).position = 0
    ∧ (summarizeLayer sampleOracle noExisting false sampleTwo sampleDoc 10).1.text
        = sampleOracle sampleTwo
    ∧ (summarizeLayer sampleOracle noExisting false sampleTwo sampleDoc 10).1.height
        = 1 + 1
    ∧ (summarizeLayer sampleOracle noExisting false sampleTwo sampleDoc 10).2
        = saveDocumentEvs
            (summarizeLayer sampleOracle noExisting false sampleTwo sampleDoc 10).1
            sampleTwo
    ∧ ((summarizeLayer sampleOracle noExisting false sampleTwo sampleDoc 10).2).filter
          isSummarizesEdgeEv
        = sampleTwo.map
            (fun s => Ev.createEdge sampleDoc.uuid s.uuid EdgeType.SUMMARIZES)) :=
  ⟨by simp [sampleTwo], by decide, by decide,
   base_case_collapse sampleOracle noExisting false sampleDoc sampleTwo 10 1
     (by simp [sampleTwo]) (by decide) (by decide)⟩

theorem nodeMatches_setProps (label : String) (u : Nat)
    (props : List (String × PropVal)) (nd : GNode) :
    nodeMatches label u (setProps label u props nd) = nodeMatches label u nd := by
  unfold setProps
  split <;> rfl

theorem setProps_idem (label : String) (u : Nat)
    (props : List (String × PropVal)) (nd : GNode) :
    setProps label u props (setProps label u props nd)
      = setProps label u props nd := by
  unfold setProps
  by_cases h : nodeMatches label u nd
  · rw [if_pos h]
    have h2 : nodeMatches label u { nd with props := props } = true := h
    rw [if_pos h2]
  · rw [if_neg h, if_neg h]

/-- C6: `save_node` is idempotent — a second call with the same label, id and
property map leaves the graph in exactly the state of the first call (the
`MERGE` matches the node the first call created or updated, and `SET n =
$props` overwrites with the same properties). -/
theorem save_node_idempotent (g : Graph) (label : String) (u : Nat)
    (props : List (String × PropVal)) :
    saveNode (saveNode g label u props) label u props
      = saveNode g label u props := by
  unfold saveNode
  by_cases hany : g.nodes.any (nodeMatches label u)
  · rw [if_pos hany]
    simp only []
    have hcomp : (nodeMatches label u ∘ setProps label u props)
        = nodeMatches label u := by
      funext nd
      exact nodeMatches_setProps label u props nd
    have hany2 : (g.nodes.map (setProps label u props)).any (nodeMatches label u)
        = true := by
      rw [List.any_map, hcomp]
      exact hany
    rw [if_pos hany2, List.map_map]
    have hupd : (setProps label u props ∘ setProps label u props)
        = setProps label u props := by
      funext nd
      exact setProps_idem label u props nd
    rw [hupd]
  · rw [if_neg hany]
    simp only []
    have hnew : nodeMatches label u (GNode.mk u [label, "Searchable"] props)
        = true := by
      simp [nodeMatches]
    have hany2 : (g.nodes ++ [GNode.mk u [label, "Searchable"] props]).any
        (nodeMatches label u) = true := by
      rw [List.any_append]
      simp [hnew]
    rw [if_pos hany2, List.map_append]
    have hnone : ∀ nd ∈ g.nodes, nodeMatches label u nd = false := by
      intro nd hnd
      by_contra hcon
      exact hany (List.any_eq_true.2
        ⟨nd, hnd, by revert hcon; cases nodeMatches label u nd <;> simp⟩)
    have hmapself : g.nodes.map (setProps label u props) = g.nodes := by
      refine (List.map_congr_left ?_).trans (List.map_id _)
      intro nd hnd
      unfold setProps
      rw [if_neg (by rw [hnone nd hnd]; exact Bool.false_ne_true)]
      rfl
    have hupdnew : [GNode.mk u [label, "Searchable"] props].map
        (setProps label u props) = [GNode.mk u [label, "Searchable"] props] := by
      simp only [List.map_cons, List.map_nil]
      unfold setProps
      rw [if_pos hnew]
    rw [hmapself, hupdnew]

def twoNodeGraph : Graph :=
  ⟨[⟨0, ["Summary", "Searchable"], []⟩, ⟨1, ["Summary", "Searchable"], []⟩], []⟩

def twoNodeGraphE : Graph := ⟨twoNodeGraph.nodes, [(0, 1, EdgeType.NEXT)]⟩

/-- C5 as written fails on its failure clause: calling `create_edge` on an
empty graph — neither endpoint exists — completes without error (the two
`MATCH` clauses produce zero rows, the `MERGE` runs zero times, and
`session.run` raises nothing), leaving the graph unchanged. -/
theorem create_edge_missing_endpoint_counterexample :
    nodeExists emptyGraph 0 = false
    ∧ createEdge emptyGraph 0 1 EdgeType.NEXT = Except.ok emptyGraph :=
  ⟨rfl, rfl⟩

/-- C5 amended: `create_edge` has merge semantics — repeating a call for the
same `(from, to, type)` is a no-op leaving the graph unchanged — but when
either endpoint does not exist the call does not fail: it silently leaves
the graph unchanged, and no call of `create_edge` ever returns an error. -/
theorem create_edge_merge_no_fail :
    (∀ (g : Graph) (f t : Nat) (ty : EdgeType) (g2 : Graph),
       createEdge g f t ty = Except.ok g2 → createEdge g2 f t ty = Except.ok g2)
    ∧ (∀ (g : Graph) (f t : Nat) (ty : EdgeType),
       (nodeExists g f = false ∨ nodeExists g t = false) →
       createEdge g f t ty = Except.ok g)
    ∧ (∀ (g : Graph) (f t : Nat) (ty : EdgeType),
       ∃ g2, createEdge g f t ty = Except.ok g2) := by
  refine ⟨?_, ?_, ?_⟩
  · intro g f t ty g2 h
    unfold createEdge at h ⊢
    by_cases hex : (nodeExists g f && nodeExists g t) = true
    · rw [if_pos hex] at h
      have hg2 := (Except.ok.inj h).symm
      subst hg2
      have hex2 : (nodeExists { g with
          edges := if (f, t, ty) ∈ g.edges then g.edges
                   else g.edges ++ [(f, t, ty)] } f
        && nodeExists { g with
          edges := if (f, t, ty) ∈ g.edges then g.edges
                   else g.edges ++ [(f, t, ty)] } t) = true := hex
      rw [if_pos hex2]
      by_cases hmem : (f, t, ty) ∈ g.edges
      · simp [hmem]
      · rw [if_neg hmem]
        simp
    · rw [if_neg hex] at h
      have hg2 := (Except.ok.inj h).symm
      subst hg2
      rw [if_neg hex]
  · intro g f t ty h
    unfold createEdge
    have hex : (nodeExists g f && nodeExists g t) = false := by
      rcases h with h | h <;> simp [h]
    simp [hex]
  · intro g f t ty
    unfold createEdge
    split
    · exact ⟨_, rfl⟩
    · exact ⟨_, rfl⟩

theorem create_edge_merge_no_fail_witness :
    (createEdge twoNodeGraph 0 1 EdgeType.NEXT = Except.ok twoNodeGraphE
     ∧ createEdge twoNodeGraphE 0 1 EdgeType.NEXT = Except.ok twoNodeGraphE)
    ∧ (nodeExists emptyGraph 5 = false ∨ nodeExists emptyGraph 1 = false)
    ∧ createEdge emptyGraph 5 1 EdgeType.PREVIOUS = Except.ok emptyGraph :=
  ⟨⟨rfl, create_edge_merge_no_fail.1 twoNodeGraph 0 1 EdgeType.NEXT twoNodeGraphE rfl⟩,
   Or.inl rfl,
   create_edge_merge_no_fail.2.1 emptyGraph 5 1 EdgeType.PREVIOUS (Or.inl rfl)⟩

/-- C9: for any splitter that (like langchain's
`RecursiveCharacterTextSplitter`) produces no fragments for empty text,
`chunk_text_for_embedding("")` returns an empty chunk sequence, raises no
error, and makes zero calls to the embedding provider; and even a fully
consumed `Gemini.embed` on an empty chunk list issues zero
`embed_content` requests. -/
theorem chunk_and_embed_empty (split : String → List String)
    (hsplit : split "" = []) :
    chunkTextForEmbedding split "" = (Except.ok [], 0)
    ∧ embedProviderCalls [] = 0 := by
  constructor
  · rw [chunkTextForEmbedding]
    rw [hsplit]
  · rw [embedProviderCalls, embedBatchStarts]
    rfl

theorem chunk_and_embed_empty_witness :
    ((fun _ : String => ([] : List String)) "" = [])
    ∧ chunkTextForEmbedding (fun _ => []) "" = (Except.ok [], 0)
    ∧ embedProviderCalls [] = 0 :=
  ⟨rfl, (chunk_and_embed_empty (fun _ => []) rfl).1,
   (chunk_and_embed_empty (fun _ => []) rfl).2⟩

theorem pageLoop_closed (existsO : Nat → Int → Nat → Bool) (isNew : Bool)
    (doc : Document) :
    ∀ (pairs : List (Page × Summary)) (pp : Option Page) (ps : Option Summary),
      pageLoop existsO isNew doc pairs pp ps
        = (withPriors pp ps pairs).flatMap (pageIterEvs existsO isNew doc) := by
  intro pairs
  induction pairs with
  | nil => intro pp ps; simp [pageLoop, withPriors]
  | cons x rest ih =>
    intro pp ps
    obtain ⟨page, summ⟩ := x
    simp only [pageLoop, withPriors, List.flatMap_cons]
    rw [ih]
    rfl

theorem sum_map_one {α : Type} (l : List α) :
    (l.map (fun _ => (1 : Nat))).sum = l.length := by
  induction l with
  | nil => rfl
  | cons a rest ih => simp [ih]; omega

theorem countP_isExistsCheckEv_savePageEvs (page : Page) (doc : Document)
    (prior : Option Page) :
    (savePageEvs page doc prior).countP isExistsCheckEv = 0 := by
  cases prior <;>
    simp [savePageEvs, linkEvs, isExistsCheckEv, List.countP_cons]

theorem countP_isExistsCheckEv_savePageSummaryEvs (s : Summary) (page : Page)
    (prior : Option Summary) :
    (savePageSummaryEvs s page prior).countP isExistsCheckEv = 0 := by
  cases prior <;>
    simp [savePageSummaryEvs, linkEvs, isExistsCheckEv, List.countP_cons]

theorem countP_isPageSaveEv_savePageEvs (page : Page) (doc : Document)
    (prior : Option Page) :
    (savePageEvs page doc prior).countP isPageSaveEv = 1 := by
  cases prior <;>
    simp [savePageEvs, linkEvs, isPageSaveEv, List.countP_cons]

theorem countP_isPageSaveEv_savePageSummaryEvs (s : Summary) (page : Page)
    (prior : Option Summary) :
    (savePageSummaryEvs s page prior).countP isPageSaveEv = 0 := by
  cases prior <;>
    simp [savePageSummaryEvs, linkEvs, isPageSaveEv, List.countP_cons]

theorem pageLoop_new_no_checks (existsO : Nat → Int → Nat → Bool)
    (doc : Document) :
    ∀ (pairs : List (Page × Summary)) (pp : Option Page) (ps : Option Summary),
      (pageLoop existsO true doc pairs pp ps).countP isExistsCheckEv = 0 := by
  intro pairs
  induction pairs with
  | nil => intro pp ps; simp [pageLoop]
  | cons x rest ih =>
    intro pp ps
    obtain ⟨page, summ⟩ := x
    simp only [pageLoop, if_true]
    rw [List.countP_append, List.countP_append,
      countP_isExistsCheckEv_savePageEvs, countP_isExistsCheckEv_savePageSummaryEvs,
      ih]

theorem pageLoop_new_page_saves (existsO : Nat → Int → Nat → Bool)
    (doc : Document) :
    ∀ (pairs : List (Page × Summary)) (pp : Option Page) (ps : Option Summary),
      (pageLoop existsO true doc pairs pp ps).countP isPageSaveEv
        = pairs.length := by
  intro pairs
  induction pairs with
  | nil => intro pp ps; simp [pageLoop]
  | cons x rest ih =>
    intro pp ps
    obtain ⟨page, summ⟩ := x
    simp only [pageLoop, if_true]
    rw [List.countP_append, List.countP_append,
      countP_isPageSaveEv_savePageEvs, countP_isPageSaveEv_savePageSummaryEvs,
      ih]
    simp
    omega

/-- C4: when `is_new_document` is true, neither the summary window loop nor
the per-page save loop ever calls the existence probe, and every write
proceeds unconditionally (one `Summary` save per window, one `Page` save per
pair); when `is_new_document` is false, every iteration first probes
`node_exists_by_position(doc.uuid, height, position)` and performs the save
only when the probe answers false — and in either mode the in-memory new
layer is the same, so the reduction proceeds to later layers over the
skipped stand-ins. -/
theorem resume_existence_checks (oracle : List Summary → String)
    (existsO : Nat → Int → Nat → Bool) (doc : Document) (l : List Summary)
    (fresh : Nat) (pairs : List (Page × Summary)) :
    ((buildLayer oracle existsO true doc l fresh).2.2).countP isExistsCheckEv = 0
    ∧ ((buildLayer oracle existsO true doc l fresh).2.2).countP isSummarySaveEv
        = (l.length + 1) / 2
    ∧ (pageLoop existsO true doc pairs none none).countP isExistsCheckEv = 0
    ∧ (pageLoop existsO true doc pairs none none).countP isPageSaveEv
        = pairs.length
    ∧ (buildLayer oracle existsO false doc l fresh).2.2
        = (List.range ((l.length + 1) / 2)).flatMap (fun j =>
            Ev.existsCheck doc.uuid (newSummaryAt oracle l fresh j).height j
                (existsO doc.uuid (newSummaryAt oracle l fresh j).height j)
              :: (if existsO doc.uuid (newSummaryAt oracle l fresh j).height j
                  then []
                  else saveSummaryEvs (newSummaryAt oracle l fresh j)
                        (priorAt oracle l fresh j) (batchAt l (2 * j))))
    ∧ pageLoop existsO false doc pairs none none
        = (withPriors none none pairs).flatMap (pageIterEvs existsO false doc)
    ∧ (buildLayer oracle existsO false doc l fresh).1
        = (buildLayer oracle existsO true doc l fresh).1 := by
  refine ⟨?_, ?_, ?_, ?_, ?_, ?_, ?_⟩
  · rw [buildLayer_closed, countP_flatMap]
    apply List.sum_eq_zero
    intro x hx
    rcases List.mem_map.1 hx with ⟨j, _, rfl⟩
    simp [layerIterEvs, countP_isExistsCheckEv_saveSummaryEvs]
  · rw [buildLayer_closed, countP_flatMap]
    have hmap : (List.range ((l.length + 1) / 2)).map
          (fun j => (layerIterEvs oracle existsO true doc.uuid l fresh j).countP
            isSummarySaveEv)
        = (List.range ((l.length + 1) / 2)).map (fun _ => 1) :=
      List.map_congr_left (fun j _ => by
        simp [layerIterEvs, countP_isSummarySaveEv_saveSummaryEvs])
    rw [hmap, sum_map_one, List.length_range]
  · exact pageLoop_new_no_checks existsO doc pairs none none
  · exact pageLoop_new_page_saves existsO doc pairs none none
  · rw [buildLayer_closed]
    rfl
  · exact pageLoop_closed existsO false doc pairs none none
  · rw [buildLayer_closed, buildLayer_closed]

theorem batchAt_subset (l : List Summary) (i : Nat) :
    ∀ x ∈ batchAt l i, x ∈ l := by
  intro x hx
  unfold batchAt at hx
  split at hx
  · exact List.mem_of_mem_drop (List.mem_of_mem_take hx)
  · exact List.mem_of_mem_drop hx

/-- C10: each summary's uuid comes from the fresh supply at construction and
is never replaced — the new layer's uuid list is exactly the consecutive
fresh ids.  When resuming an existing document, an iteration whose address
already exists performs no write (its trace is the existence probe alone),
yet the very next saved summary links `NEXT`/`PREVIOUS` to the skipped
stand-in by its freshly generated uuid, and every `SUMMARIZES` edge of a
reduction pass targets the uuid of an in-memory batch member (never an id
read back from the database). -/
theorem stand_in_keeps_fresh_uuid (oracle : List Summary → String)
    (existsO : Nat → Int → Nat → Bool) (doc : Document) (l : List Summary)
    (fresh j : Nat)
    (hj : j + 1 < (l.length + 1) / 2)
    (hskip : existsO doc.uuid (newSummaryAt oracle l fresh j).height j = true)
    (hsave : existsO doc.uuid (newSummaryAt oracle l fresh (j + 1)).height (j + 1)
        = false) :
    (buildLayer oracle existsO false doc l fresh).1.map Summary.uuid
      = (List.range ((l.length + 1) / 2)).map (fun i => fresh + i)
    ∧ layerIterEvs oracle existsO false doc.uuid l fresh j
        = [Ev.existsCheck doc.uuid (newSummaryAt oracle l fresh j).height j true]
    ∧ Ev.createEdge (fresh + j) (fresh + (j + 1)) EdgeType.NEXT
        ∈ (buildLayer oracle existsO false doc l fresh).2.2
    ∧ Ev.createEdge (fresh + (j + 1)) (fresh + j) EdgeType.PREVIOUS
        ∈ (buildLayer oracle existsO false doc l fresh).2.2
    ∧ (∀ (m : List Summary) (fr f2 t2 : Nat),
        Ev.createEdge f2 t2 EdgeType.SUMMARIZES
            ∈ (buildLayer oracle existsO false doc m fr).2.2 →
        ∃ c ∈ m, c.uuid = t2) := by
  refine ⟨?_, ?_, ?_, ?_, ?_⟩
  · rw [buildLayer_closed]
    simp only [List.map_map]
    exact List.map_congr_left fun i _ => rfl
  · simp [layerIterEvs, newSummaryAt_position, hskip]
  · rw [buildLayer_closed]
    apply List.mem_flatMap.2
    refine ⟨j + 1, by simp [List.mem_range]; omega, ?_⟩
    simp [layerIterEvs, newSummaryAt_position, hsave, saveSummaryEvs, priorAt,
      linkEvs, newSummaryAt_uuid]
  · rw [buildLayer_closed]
    apply List.mem_flatMap.2
    refine ⟨j + 1, by simp [List.mem_range]; omega, ?_⟩
    simp [layerIterEvs, newSummaryAt_position, hsave, saveSummaryEvs, priorAt,
      linkEvs, newSummaryAt_uuid]
  · intro m fr f2 t2 hmem
    rw [buildLayer_closed] at hmem
    rcases List.mem_flatMap.1 hmem with ⟨j2, _, hev⟩
    simp only [layerIterEvs, newSummaryAt_position, Bool.false_eq_true,
      if_false] at hev
    rcases List.mem_cons.1 hev with h | h
    · exact absurd h (by simp)
    · by_cases hex : existsO doc.uuid (newSummaryAt oracle m fr j2).height j2 = true
      · rw [if_pos hex] at h
        simp at h
      · rw [if_neg hex] at h
        rcases mem_saveSummaryEvs h with h1 | h1 | ⟨p, hp, h1 | h1⟩ | ⟨c, hc, h1⟩
        · exact absurd h1 (by simp)
        · exact absurd h1 (by simp)
        · simp at h1
        · simp at h1
        · rw [Ev.createEdge.injEq] at h1
          exact ⟨c, batchAt_subset m (2 * j2) c hc, h1.2.1.symm⟩

theorem stand_in_keeps_fresh_uuid_witness :
    0 + 1 < (sampleFive.length + 1) / 2
    ∧ posZeroExists sampleDoc.uuid
        (newSummaryAt sampleOracle sampleFive 10 0).height 0 = true
    ∧ posZeroExists sampleDoc.uuid
        (newSummaryAt sampleOracle sampleFive 10 (0 + 1)).height (0 + 1) = false
    ∧ (buildLayer sampleOracle posZeroExists false sampleDoc sampleFive 10).1.map
        Summary.uuid
        = (List.range ((sampleFive.length + 1) / 2)).map (fun i => 10 + i)
    ∧ layerIterEvs sampleOracle posZeroExists false sampleDoc.uuid sampleFive 10 0
        = [Ev.existsCheck sampleDoc.uuid
            (newSummaryAt sampleOracle sampleFive 10 0).height 0 true]
    ∧ Ev.createEdge (10 + 0) (10 + (0 + 1)) EdgeType.NEXT
        ∈ (buildLayer sampleOracle posZeroExists false sampleDoc sampleFive 10).2.2
    ∧ Ev.createEdge (10 + (0 + 1)) (10 + 0) EdgeType.PREVIOUS
        ∈ (buildLayer sampleOracle posZeroExists false sampleDoc sampleFive 10).2.2
    ∧ ∃ c ∈ sampleFive, c.uuid = 3 := by
  have h := stand_in_keeps_fresh_uuid sampleOracle posZeroExists sampleDoc
    sampleFive 10 0 (by decide) (by decide) (by decide)
  refine ⟨by decide, by decide, by decide, h.1, h.2.1, ?_, ?_, ?_⟩
  · have hm := h.2.2.1
    simpa using hm
  · have hm := h.2.2.2.1
    simpa using hm
  · apply h.2.2.2.2 sampleFive 20 21 3
    simp [buildLayer, loopGo, windowStarts, batchAt, summarizeSummaries,
      saveSummaryEvs, linkEvs, posZeroExists, sampleFive, sampleDoc, sampleOracle]

end Velociraptor
